import Mathlib

/-!
Shallow embedding of the drag-parser extraction core
(src/drag_parser/parser/parser.py and src/drag_parser/api/parser/controllers.py).

Modelling conventions:
* An HTML document (a BeautifulSoup tree) is a `Node`: either a text node or an
  element with a tag name, a list of CSS classes (the multi-valued `class`
  attribute), the remaining attributes, and children.
* `Tag.text` is the concatenation of all descendant text, `find` / `find_all`
  search the descendants in document (pre-order) order, excluding the node
  itself, exactly as BeautifulSoup does.
* Python floats: every price the code produces is either `0.0` or
  `float(d)` for a run `d` of decimal digits, so prices are modelled as `Nat`
  (the numeric value of the digit run; `0` models `0.0`).
* `re` patterns are modelled character-by-character; `\d` is modelled as the
  ASCII digits `0`-`9` and `\s` as the ASCII whitespace characters.
* HTTP fetching is modelled as an explicit environment `fetch : String → Node`
  mapping a URL to the document it returns.
* Python exceptions are modelled with `Except PyErr`.
-/

inductive PyErr where
  | valueError : String → PyErr
  | attributeError : PyErr
deriving DecidableEq, Repr

/-- A parsed HTML tree: a text node, or an element with tag name, CSS class
list, other attributes and children. -/
inductive Node where
  | text : String → Node
  | elem : String → List String → List (String × String) → List Node → Node
deriving Repr

mutual
/-- `Tag.text`: concatenation of all text in the subtree, in document order. -/
def nodeText : Node → String
  | .text s => s
  | .elem _ _ _ cs => nodeTextList cs

/-- Concatenated text of a list of sibling nodes. -/
def nodeTextList : List Node → String
  | [] => ""
  | c :: cs => nodeText c ++ nodeTextList cs
end

mutual
/-- All descendants of a node in pre-order (the node itself excluded),
the order in which BeautifulSoup's `find` / `find_all` visit elements. -/
def descendants : Node → List Node
  | .text _ => []
  | .elem _ _ _ cs => descendantsList cs

/-- Pre-order traversal of a list of sibling subtrees. -/
def descendantsList : List Node → List Node
  | [] => []
  | c :: cs => (c :: descendants c) ++ descendantsList cs
end

/-- BeautifulSoup class matching for a string query: the query equals one of
the element's classes, or equals the whole space-joined class attribute. -/
def classMatches (q : String) (classes : List String) : Bool :=
  classes.contains q || q == String.intercalate " " classes

/-- Value of an attribute (`tag.attrs.get(key)`). -/
def attrValue (attrs : List (String × String)) (key : String) : Option String :=
  attrs.lookup key

/-- Does a node match a `find(name, class_=..., attrs={...})` query?
`none` components are unconstrained. Text nodes never match. -/
def nodeMatches (name : Option String) (cls : Option String)
    (attrs : List (String × String)) : Node → Bool
  | .text _ => false
  | .elem n classes as _ =>
    (match name with | none => true | some m => n == m) &&
    (match cls with | none => true | some q => classMatches q classes) &&
    attrs.all fun kv => attrValue as kv.1 == some kv.2

/-- `find_all`: all matching descendants in document order. -/
def findAll (p : Node → Bool) (n : Node) : List Node :=
  (descendants n).filter p

/-- `find`: the first matching descendant, if any. -/
def findFirst (p : Node → Bool) (n : Node) : Option Node :=
  (findAll p n).head?

/-! ## Price-string patterns (models of the `re` patterns in parser.py) -/

/-- Leading run of decimal digits and the remainder. -/
def takeDigits (s : List Char) : List Char × List Char :=
  (s.takeWhile Char.isDigit, s.dropWhile Char.isDigit)

/-- Numeric value of a digit run (the model of `float` applied to the captured
group of decimal digits). -/
def digitsToNat (s : List Char) : Nat :=
  s.foldl (fun acc c => acc * 10 + (c.toNat - 48)) 0

/-- Model of `re.search(r'(?P<price>\d+)', s)`: the first (leftmost, maximal)
run of digits anywhere in the string. -/
def firstDigitRun : List Char → Option (List Char)
  | [] => none
  | c :: rest =>
    if c.isDigit then some (c :: rest.takeWhile Char.isDigit)
    else firstDigitRun rest

/-- `ParserVekolom._match_price`: first run of digits anywhere, else `0.0`. -/
def vekolomMatchPrice (s : String) : Nat :=
  match firstDigitRun s.data with
  | some run => digitsToNat run
  | none => 0

/-- `ParserUralvtordrag._match_price`: `re.search(r"^(?P<price>\d+)", s)` —
a leading run of digits, else `0.0`. -/
def uralMatchPrice (s : String) : Nat :=
  match s.data with
  | c :: rest => if c.isDigit then digitsToNat (c :: rest.takeWhile Char.isDigit) else 0
  | [] => 0

/-- Python `\s` (ASCII part). -/
def isPySpace (c : Char) : Bool :=
  c == ' ' || c == '\t' || c == '\n' || c == '\r' || c == '\x0b' || c == '\x0c'

/-- Plata57 pattern (a), `^(?P<price>\d+)$`: the entire string is digits
(Python `$` also matches just before one trailing newline). -/
def plataPatWhole (s : List Char) : Option Nat :=
  let (run, rest) := takeDigits s
  if run.isEmpty then none
  else if rest.isEmpty || rest == ['\n'] then some (digitsToNat run)
  else none

/-- Plata57 pattern (b), `^от\s(?P<price>\d+)`: the string starts with
`от`, one whitespace character, then the captured digit run. -/
def plataPatOt (s : List Char) : Option Nat :=
  match s with
  | 'о' :: 'т' :: c :: rest =>
    if isPySpace c then
      let (run, _) := takeDigits rest
      if run.isEmpty then none else some (digitsToNat run)
    else none
  | _ => none

/-- Attempt `\d+ sep (\d+)` at the head of the list: a maximal digit run,
the separator, then the captured digit run. -/
def pairAt (sep : Char) (s : List Char) : Option Nat :=
  let (run, rest) := takeDigits s
  if run.isEmpty then none
  else
    match rest with
    | c :: r2 =>
      if c == sep then
        let (run2, _) := takeDigits r2
        if run2.isEmpty then none else some (digitsToNat run2)
      else none
    | [] => none

/-- Model of `re.search` for `\d+\-(\d+)` / `\d+\/(\d+)`: try the pattern at
each successive start position, leftmost match wins. -/
def searchPair (sep : Char) : List Char → Option Nat
  | [] => none
  | c :: rest =>
    match pairAt sep (c :: rest) with
    | some n => some n
    | none => searchPair sep rest

/-- `ParserPlata57._match_price`: the four regexps tried in order, first match
wins; `0.0` when none matches. -/
def plata57MatchPrice (s : String) : Nat :=
  match plataPatWhole s.data with
  | some n => n
  | none =>
    match plataPatOt s.data with
    | some n => n
    | none =>
      match searchPair '-' s.data with
      | some n => n
      | none =>
        match searchPair '/' s.data with
        | some n => n
        | none => 0

/-! ## URL handling (`urllib.parse.urlparse(...).netloc`) -/

/-- Characters allowed in a URL scheme after the first. -/
def schemeChar (c : Char) : Bool :=
  c.isAlphanum || c == '+' || c == '-' || c == '.'

/-- Split a character list at the first `:`, returning (before, after). -/
def findColonSplit : List Char → Option (List Char × List Char)
  | [] => none
  | ':' :: rest => some ([], rest)
  | c :: rest =>
    match findColonSplit rest with
    | some p => some (c :: p.1, p.2)
    | none => none

/-- `urllib.parse.urlparse(url).netloc`: strip a valid scheme (a nonempty
alpha-initial run of scheme characters before a `:`), then, if the remainder
starts with `//`, take everything up to the next `/`, `?` or `#`. -/
def urlNetloc (url : String) : String :=
  let s := url.data
  let rest :=
    match findColonSplit s with
    | some (pre, post) =>
      if !pre.isEmpty && (match pre with | c :: _ => c.isAlpha | [] => false)
          && pre.all schemeChar then post else s
    | none => s
  match rest with
  | '/' :: '/' :: r =>
    ⟨r.takeWhile fun c => !(c == '/') && !(c == '?') && !(c == '#')⟩
  | _ => ""

/-! ## The Price record and the per-site extractors -/

/-- The `Price` TypedDict: `{title, host, price}`. -/
structure Price where
  title : String
  host : String
  price : Nat
deriving DecidableEq, Repr

/-- The three parser classes, as the registry dispatches over them. -/
inductive ParserKind where
  | vekolom
  | plata57
  | uralvtordrag
deriving DecidableEq, Repr

/-- The `url` each parser's `__init__` sets. -/
def parserUrl : ParserKind → String
  | .vekolom => "https://vekolom.ru/pricelist"
  | .plata57 => "http://plata57.ru"
  | .uralvtordrag => "https://uralvtordrag.ru"

/-- `Parser._host`: the netloc of the parser's configured URL. -/
def parserHost (k : ParserKind) : String :=
  urlNetloc (parserUrl k)

/-- The hosts the registry supports (`AvailableHosts`). -/
def availableHosts : List String :=
  ["vekolom.ru", "plata57.ru", "uralvtordrag.ru"]

/-- `HOSTS_WITH_CATEGORIES`. -/
def hostsWithCategories : List String :=
  ["uralvtordrag.ru"]

/-- `get_parser_for_host`: exact string match against the three supported
hosts; any other host raises
`ValueError("The specified host is not supported by the parser")`. -/
def getParserForHost (host : String) : Except PyErr ParserKind :=
  if host = "vekolom.ru" then .ok .vekolom
  else if host = "plata57.ru" then .ok .plata57
  else if host = "uralvtordrag.ru" then .ok .uralvtordrag
  else .error (.valueError "The specified host is not supported by the parser")

/-! ### ParserVekolom -/

/-- `soup.find_all(class_='price-table-item-wr')`. -/
def vekolomRowQuery : Node → Bool :=
  nodeMatches none (some "price-table-item-wr") []

/-- `row.find(class_="positionname")`. -/
def vekolomTitleQuery : Node → Bool :=
  nodeMatches none (some "positionname") []

/-- `row.find(class_="positionprice")`. -/
def vekolomPosPriceQuery : Node → Bool :=
  nodeMatches none (some "positionprice") []

/-- `row.find_all(class_="price_flex_value")`. -/
def vekolomFlexQuery : Node → Bool :=
  nodeMatches none (some "price_flex_value") []

/-- `ParserVekolom._parse_title`: text of the first descendant with class
`positionname`, or `""` when absent (logged, empty string returned). -/
def vekolomParseTitle (row : Node) : String :=
  match findFirst vekolomTitleQuery row with
  | none => ""
  | some t => nodeText t

/-- `ParserVekolom._parse_price_at_flexbox`: every `price_flex_value`
element's text, normalized. -/
def vekolomParsePriceAtFlexbox (row : Node) : List Nat :=
  (findAll vekolomFlexQuery row).map fun p => vekolomMatchPrice (nodeText p)

/-- `ParserVekolom._parse_price`: the `positionprice` element if present,
otherwise the last flexbox price, otherwise `0.0`. -/
def vekolomParsePrice (row : Node) : Nat :=
  match findFirst vekolomPosPriceQuery row with
  | some p => vekolomMatchPrice (nodeText p)
  | none =>
    match (vekolomParsePriceAtFlexbox row).getLast? with
    | some x => x
    | none => 0

/-- `ParserVekolom.parse_prices`: one record per `price-table-item-wr` row,
skipping (`continue`) rows whose title came back empty. -/
def vekolomParsePrices (soup : Node) : List Price :=
  (findAll vekolomRowQuery soup).filterMap
    fun row =>
      let title := vekolomParseTitle row
      if title = "" then none
      else some { title := title, price := vekolomParsePrice row,
                  host := urlNetloc (parserUrl .vekolom) }

/-! ### ParserPlata57 -/

/-- `soup.find('table', class_='table table-bordered table-hover table-price')`. -/
def plataTableQuery : Node → Bool :=
  nodeMatches (some "table") (some "table table-bordered table-hover table-price") []

/-- `table.find('tbody')`. -/
def plataTbodyQuery : Node → Bool :=
  nodeMatches (some "tbody") none []

/-- `tbody.find_all('tr')`. -/
def plataRowQuery : Node → Bool :=
  nodeMatches (some "tr") none []

/-- `row.find(attrs={"style": "color: #000000;"})`. -/
def plataTitleQuery : Node → Bool :=
  nodeMatches none none [("style", "color: #000000;")]

/-- `row.find_all(attrs={"style": "text-align: center; vertical-align: middle;"})`. -/
def plataColQuery : Node → Bool :=
  nodeMatches none none [("style", "text-align: center; vertical-align: middle;")]

/-- `ParserPlata57._parse_title`: text of the first descendant whose `style`
attribute is exactly `color: #000000;`, or `""` when absent. -/
def plata57ParseTitle (row : Node) : String :=
  match findFirst plataTitleQuery row with
  | none => ""
  | some t => nodeText t

/-- `ParserPlata57._parse_price`: the centred columns that contain a `b` or
`strong` descendant; `0.0` when there are none, else the first one's text
normalized. -/
def plata57ParsePrice (row : Node) : Nat :=
  let price :=
    (findAll plataColQuery row).filter
      fun col =>
        (findFirst (nodeMatches (some "b") none []) col).isSome ||
        (findFirst (nodeMatches (some "strong") none []) col).isSome
  match price with
  | [] => 0
  | p :: _ => plata57MatchPrice (nodeText p)

/-- `ParserPlata57.parse_prices`:
`soup.find('table', class_='table table-bordered table-hover table-price')
.find('tbody').find_all('tr')`. A missing table or tbody makes the chained
attribute access raise (`NoneType` has no `find`); every row found yields a
record, with no filtering. -/
def plata57ParsePrices (soup : Node) : Except PyErr (List Price) :=
  match findFirst plataTableQuery soup with
  | none => .error .attributeError
  | some table =>
    match findFirst plataTbodyQuery table with
    | none => .error .attributeError
    | some tbody =>
      .ok ((findAll plataRowQuery tbody).map
        fun row => { title := plata57ParseTitle row,
                     price := plata57ParsePrice row,
                     host := urlNetloc (parserUrl .plata57) })

/-! ### ParserUralvtordrag -/

/-- `soup.find_all("div", class_="catalogItem")`. -/
def uralRowQuery : Node → Bool :=
  nodeMatches (some "div") (some "catalogItem") []

/-- `row.find(class_="item_caption")`. -/
def uralTitleQuery : Node → Bool :=
  nodeMatches none (some "item_caption") []

/-- `row.find("span", class_="row5 td item_prise")`. -/
def uralPriceQuery : Node → Bool :=
  nodeMatches (some "span") (some "row5 td item_prise") []

/-- `ParserUralvtordrag._parse_title`: text of the first `item_caption`
descendant, or `""` when absent. -/
def uralParseTitle (row : Node) : String :=
  match findFirst uralTitleQuery row with
  | none => ""
  | some t => nodeText t

/-- `ParserUralvtordrag._parse_price`: the first
`span.row5 td item_prise` descendant's text normalized, or `0.0`. -/
def uralParsePrice (row : Node) : Nat :=
  match findFirst uralPriceQuery row with
  | none => 0
  | some p => uralMatchPrice (nodeText p)

/-- `ParserUralvtordrag.parse_prices`: one record per `div.catalogItem`,
no filtering. -/
def uralParsePrices (soup : Node) : List Price :=
  (findAll uralRowQuery soup).map
    fun row => { title := uralParseTitle row,
                 price := uralParsePrice row,
                 host := urlNetloc (parserUrl .uralvtordrag) }

/-- `ParserUralvtordrag.get_categories_urls`: every `a.catalog_part`
descendant, rendered as `f"{self.url}{category.attrs.get('href')}"`
(a missing `href` renders as the string `None`). -/
def uralGetCategoriesUrls (soup : Node) : List String :=
  (findAll (nodeMatches (some "a") (some "catalog_part") []) soup).map
    fun a =>
      parserUrl .uralvtordrag ++
        (match a with
         | .elem _ _ attrs _ =>
           match attrValue attrs "href" with
           | some h => h
           | none => "None"
         | .text _ => "None")

/-- `parse_prices` dispatched on the parser class. Vekolom and Uralvtordrag
have no failing operation; Plata57's container lookup can raise. -/
def parsePrices : ParserKind → Node → Except PyErr (List Price)
  | .vekolom, soup => .ok (vekolomParsePrices soup)
  | .plata57, soup => plata57ParsePrices soup
  | .uralvtordrag, soup => .ok (uralParsePrices soup)

/-- `get_categories_urls` dispatched: only `ParserUralvtordrag` defines it;
calling it on another parser raises `AttributeError`. -/
def getCategoriesUrls : ParserKind → Node → Except PyErr (List String)
  | .uralvtordrag, soup => .ok (uralGetCategoriesUrls soup)
  | _, _ => .error .attributeError

/-! ## MD5 (`hashlib.md5(...).hexdigest()` over the UTF-8 bytes) -/

/-- UTF-8 encoding of one character (what Python's `str.encode()` emits). -/
def charUtf8 (c : Char) : List Nat :=
  let n := c.toNat
  if n < 128 then [n]
  else if n < 2048 then [192 + n / 64, 128 + n % 64]
  else if n < 65536 then [224 + n / 4096, 128 + (n / 64) % 64, 128 + n % 64]
  else [240 + n / 262144, 128 + (n / 4096) % 64, 128 + (n / 64) % 64, 128 + n % 64]

/-- UTF-8 bytes of a string. -/
def strBytes (s : String) : List Nat :=
  s.data.flatMap charUtf8

def m32 (x : Nat) : Nat := x % 4294967296

/-- Bitwise complement within 32 bits (argument assumed `< 2^32`). -/
def mnot32 (x : Nat) : Nat := 4294967295 - x

/-- Rotate a 32-bit word left by `s` bits. -/
def rotl32 (x s : Nat) : Nat :=
  m32 (x * 2 ^ s) + x % 2 ^ 32 / 2 ^ (32 - s)

/-- The 64 MD5 sine-derived constants (RFC 1321). -/
def md5K : List Nat :=
  [0xd76aa478, 0xe8c7b756, 0x242070db, 0xc1bdceee,
   0xf57c0faf, 0x4787c62a, 0xa8304613, 0xfd469501,
   0x698098d8, 0x8b44f7af, 0xffff5bb1, 0x895cd7be,
   0x6b901122, 0xfd987193, 0xa679438e, 0x49b40821,
   0xf61e2562, 0xc040b340, 0x265e5a51, 0xe9b6c7aa,
   0xd62f105d, 0x02441453, 0xd8a1e681, 0xe7d3fbc8,
   0x21e1cde6, 0xc33707d6, 0xf4d50d87, 0x455a14ed,
   0xa9e3e905, 0xfcefa3f8, 0x676f02d9, 0x8d2a4c8a,
   0xfffa3942, 0x8771f681, 0x6d9d6122, 0xfde5380c,
   0xa4beea44, 0x4bdecfa9, 0xf6bb4b60, 0xbebfbc70,
   0x289b7ec6, 0xeaa127fa, 0xd4ef3085, 0x04881d05,
   0xd9d4d039, 0xe6db99e5, 0x1fa27cf8, 0xc4ac5665,
   0xf4292244, 0x432aff97, 0xab9423a7, 0xfc93a039,
   0x655b59c3, 0x8f0ccc92, 0xffeff47d, 0x85845dd1,
   0x6fa87e4f, 0xfe2ce6e0, 0xa3014314, 0x4e0811a1,
   0xf7537e82, 0xbd3af235, 0x2ad7d2bb, 0xeb86d391]

/-- The MD5 per-round left-rotation amounts. -/
def md5S : List Nat :=
  [7, 12, 17, 22, 7, 12, 17, 22, 7, 12, 17, 22, 7, 12, 17, 22,
   5, 9, 14, 20, 5, 9, 14, 20, 5, 9, 14, 20, 5, 9, 14, 20,
   4, 11, 16, 23, 4, 11, 16, 23, 4, 11, 16, 23, 4, 11, 16, 23,
   6, 10, 15, 21, 6, 10, 15, 21, 6, 10, 15, 21, 6, 10, 15, 21]

/-- The MD5 round mixing function for round `i`. -/
def md5F (i b c d : Nat) : Nat :=
  if i < 16 then Nat.lor (Nat.land b c) (Nat.land (mnot32 b) d)
  else if i < 32 then Nat.lor (Nat.land d b) (Nat.land (mnot32 d) c)
  else if i < 48 then Nat.xor b (Nat.xor c d)
  else Nat.xor c (Nat.lor b (mnot32 d))

/-- The MD5 message-word index for round `i`. -/
def md5G (i : Nat) : Nat :=
  if i < 16 then i
  else if i < 32 then (5 * i + 1) % 16
  else if i < 48 then (3 * i + 5) % 16
  else (7 * i) % 16

/-- One MD5 round on state `(a, b, c, d)` with message words `M`. -/
def md5Round (M : List Nat) (st : Nat × Nat × Nat × Nat) (i : Nat) :
    Nat × Nat × Nat × Nat :=
  let (a, b, c, d) := st
  let f := m32 (md5F i b c d + a + md5K.getD i 0 + M.getD (md5G i) 0)
  (d, m32 (b + rotl32 f (md5S.getD i 0)), b, c)

/-- Little-endian 32-bit words of a 64-byte chunk. -/
def leWords : List Nat → List Nat
  | b0 :: b1 :: b2 :: b3 :: rest =>
    (b0 + 256 * (b1 + 256 * (b2 + 256 * b3))) :: leWords rest
  | _ => []

/-- Process one 64-byte chunk. -/
def md5Chunk (st : Nat × Nat × Nat × Nat) (chunk : List Nat) :
    Nat × Nat × Nat × Nat :=
  let M := leWords chunk
  let (a, b, c, d) := (List.range 64).foldl (md5Round M) st
  (m32 (st.1 + a), m32 (st.2.1 + b), m32 (st.2.2.1 + c), m32 (st.2.2.2 + d))

/-- Split a byte list into 64-byte chunks. -/
def chunks64 : List Nat → List (List Nat)
  | [] => []
  | x :: rest => (x :: rest).take 64 :: chunks64 ((x :: rest).drop 64)
termination_by l => l.length
decreasing_by
  simp [List.length_drop]
  omega

/-- `k` little-endian bytes of `n` (truncating). -/
def leBytes (k n : Nat) : List Nat :=
  match k with
  | 0 => []
  | k + 1 => n % 256 :: leBytes k (n / 256)

/-- MD5 padding: `0x80`, zeros to 56 mod 64, then the 64-bit little-endian
bit length. -/
def md5Pad (msg : List Nat) : List Nat :=
  msg ++ 128 :: List.replicate ((119 - msg.length % 64) % 64) 0
      ++ leBytes 8 (8 * msg.length)

/-- The 16-byte MD5 digest of a byte list. -/
def md5Bytes (msg : List Nat) : List Nat :=
  let init := (0x67452301, 0xefcdab89, 0x98badcfe, 0x10325476)
  let (a, b, c, d) := (chunks64 (md5Pad msg)).foldl md5Chunk init
  leBytes 4 a ++ leBytes 4 b ++ leBytes 4 c ++ leBytes 4 d

/-- Lowercase hex digit. -/
def hexDigitChar (n : Nat) : Char :=
  if n < 10 then Char.ofNat (48 + n) else Char.ofNat (87 + n)

/-- Lowercase hex rendering of a byte list (`hexdigest()`). -/
def hexDigest (bs : List Nat) : String :=
  ⟨bs.flatMap fun b => [hexDigitChar (b / 16), hexDigitChar (b % 16)]⟩

/-- `md5(s.encode()).hexdigest()`. -/
def md5Hex (s : String) : String :=
  hexDigest (md5Bytes (strBytes s))

/-! ## Controllers (src/drag_parser/api/parser/controllers.py) -/

/-- The `ParsedPrice` response schema. -/
structure ParsedPrice where
  id : String
  host : String
  title : String
  price : Nat
deriving DecidableEq, Repr

/-- One response record:
`ParsedPrice(id=md5(f"{host}{title}".encode()).hexdigest(), ...)`. -/
def mkParsedPrice (p : Price) : ParsedPrice :=
  { id := md5Hex (p.host ++ p.title),
    host := p.host, title := p.title, price := p.price }

/-- The `for category in categories` loop: fetch each category URL and
extend the accumulated price list with its parsed prices. -/
def gatherPrices (fetch : String → Node) (k : ParserKind) :
    List String → Except PyErr (List Price)
  | [] => .ok []
  | c :: rest =>
    (parsePrices k (fetch c)).bind fun ps =>
      (gatherPrices fetch k rest).map fun more => ps ++ more

/-- `parse_prices_from_categories_by_host`: resolve the parser, fetch its
top-level page, discover the category URLs, fetch and parse each category in
order, and wrap every price into a `ParsedPrice`. -/
def parsePricesFromCategoriesByHost (fetch : String → Node) (host : String) :
    Except PyErr (List ParsedPrice) :=
  (getParserForHost host).bind fun k =>
    (getCategoriesUrls k (fetch (parserUrl k))).bind fun cats =>
      (gatherPrices fetch k cats).map fun prices => prices.map mkParsedPrice

/-- `parse_prices_by_host`: category fan-out for hosts in
`HOSTS_WITH_CATEGORIES`, otherwise a single fetch of the parser's URL. -/
def parsePricesByHost (fetch : String → Node) (host : String) :
    Except PyErr (List ParsedPrice) :=
  if hostsWithCategories.contains host then
    parsePricesFromCategoriesByHost fetch host
  else
    (getParserForHost host).bind fun k =>
      (parsePrices k (fetch (parserUrl k))).map fun prices =>
        prices.map mkParsedPrice

/-! ## Helper definitions and lemmas for the verification -/

/-- Does the second list start with the first? -/
def startsWithChars : List Char → List Char → Bool
  | [], _ => true
  | _ :: _, [] => false
  | a :: as, b :: bs => a == b && startsWithChars as bs

/-- Does the list contain the needle as a contiguous sublist? -/
def hasSubList (needle : List Char) : List Char → Bool
  | [] => startsWithChars needle []
  | c :: rest => startsWithChars needle (c :: rest) || hasSubList needle rest

/-- Does `hay` contain `needle` as a contiguous substring? -/
def strContainsStr (hay needle : String) : Bool :=
  hasSubList needle.data hay.data

theorem takeWhile_digits_append (l1 l2 : List Char)
    (h1 : ∀ c ∈ l1, c.isDigit = true) (h2 : ∀ c ∈ l2.take 1, c.isDigit = false) :
    (l1 ++ l2).takeWhile Char.isDigit = l1 := by
  induction l1 with
  | nil =>
    cases l2 with
    | nil => rfl
    | cons c r => simp [List.takeWhile_cons, h2 c (by simp)]
  | cons c r ih =>
    simp [List.takeWhile_cons, h1 c (by simp)]
    exact ih fun x hx => h1 x (by simp [hx])

theorem firstDigitRun_concat (pre run post : List Char)
    (hpre : ∀ c ∈ pre, c.isDigit = false) (hrun : run ≠ [])
    (hd : ∀ c ∈ run, c.isDigit = true)
    (hpost : ∀ c ∈ post.take 1, c.isDigit = false) :
    firstDigitRun (pre ++ run ++ post) = some run := by
  induction pre with
  | nil =>
    cases run with
    | nil => exact absurd rfl hrun
    | cons c rs =>
      simp only [List.nil_append, List.cons_append, firstDigitRun,
        hd c (by simp), if_true, List.append_eq]
      rw [takeWhile_digits_append rs post (fun x hx => hd x (by simp [hx])) hpost]
  | cons c r ih =>
    simp only [List.cons_append, firstDigitRun, hpre c (by simp)]
    exact ih (fun x hx => hpre x (by simp [hx]))

theorem firstDigitRun_eq_none (l : List Char) (h : ∀ c ∈ l, c.isDigit = false) :
    firstDigitRun l = none := by
  induction l with
  | nil => rfl
  | cons c r ih =>
    simp only [firstDigitRun, h c (by simp)]
    exact ih fun x hx => h x (by simp [hx])

/-! ## The claims -/

/-- C2 counterexample: resolving "example.com" raises
`ValueError("The specified host is not supported by the parser")` — a fixed
message that does not contain the offending host string, so the resolution
error does not carry the host. -/
theorem c2_counterexample :
    getParserForHost "example.com" =
      .error (.valueError "The specified host is not supported by the parser") ∧
    strContainsStr "The specified host is not supported by the parser"
      "example.com" = false :=
  ⟨rfl, by decide⟩

/-- C2 (amended): every host other than the three supported domains makes
`get_parser_for_host` raise a ValueError whose fixed message does not name
the host (the API boundary, not the resolver, echoes the host); each of the
three supported domains resolves to its parser without error. -/
theorem c2_resolution :
    (∀ host, host ∉ availableHosts →
       getParserForHost host =
         .error (.valueError "The specified host is not supported by the parser")) ∧
    getParserForHost "vekolom.ru" = .ok .vekolom ∧
    getParserForHost "plata57.ru" = .ok .plata57 ∧
    getParserForHost "uralvtordrag.ru" = .ok .uralvtordrag := by
  refine ⟨?_, rfl, rfl, rfl⟩
  intro host h
  simp [availableHosts] at h
  obtain ⟨h1, h2, h3⟩ := h
  simp [getParserForHost, h1, h2, h3]

/-- C2 witness: the amended claim applied to the unsupported host
"example.com". -/
theorem c2_resolution_witness :
    getParserForHost "example.com" =
      .error (.valueError "The specified host is not supported by the parser") :=
  c2_resolution.1 "example.com" (by decide)

/-- C8: the Set A normalizer (Vekolom) returns the numeric value of the first
run of decimal digits anywhere in the string — 123 for "123 руб/кг" — and 0
(the model of `0.0`) when the string contains no digit at all. -/
theorem c8_vekolom_normalizer :
    vekolomMatchPrice "123 руб/кг" = 123 ∧
    vekolomMatchPrice "no digits here" = 0 ∧
    (∀ s pre run post, s.data = pre ++ run ++ post →
       (∀ c ∈ pre, c.isDigit = false) → run ≠ [] →
       (∀ c ∈ run, c.isDigit = true) →
       (∀ c ∈ post.take 1, c.isDigit = false) →
       vekolomMatchPrice s = digitsToNat run) ∧
    (∀ s, (∀ c ∈ s.data, c.isDigit = false) → vekolomMatchPrice s = 0) := by
  refine ⟨by decide, by decide, ?_, ?_⟩
  · intro s pre run post hs hpre hrun hd hpost
    unfold vekolomMatchPrice
    rw [hs, firstDigitRun_concat pre run post hpre hrun hd hpost]
  · intro s h
    unfold vekolomMatchPrice
    rw [firstDigitRun_eq_none s.data h]

/-- C8 witness: the first-digit-run clause instantiated at "123 руб/кг" with
an empty digit-free preamble, run "123" and remainder " руб/кг". -/
theorem c8_witness :
    vekolomMatchPrice "123 руб/кг" = digitsToNat ['1', '2', '3'] :=
  c8_vekolom_normalizer.2.2.1 "123 руб/кг" [] ['1', '2', '3'] " руб/кг".data
    (by decide) (by decide) (by decide) (by decide) (by decide)

theorem vekolom_mem (soup : Node) (p : Price) (hp : p ∈ vekolomParsePrices soup) :
    p.title ≠ "" ∧ p.host = urlNetloc (parserUrl .vekolom) := by
  unfold vekolomParsePrices at hp
  rcases List.mem_filterMap.mp hp with ⟨row, _, heq⟩
  by_cases ht : vekolomParseTitle row = ""
  · simp [ht] at heq
  · rw [if_neg ht] at heq
    cases Option.some.inj heq
    exact ⟨ht, rfl⟩

theorem plata57_ok_mem (soup : Node) (l : List Price) (p : Price)
    (h : plata57ParsePrices soup = .ok l) (hp : p ∈ l) :
    p.host = urlNetloc (parserUrl .plata57) := by
  unfold plata57ParsePrices at h
  split at h
  · cases h
  · split at h
    · cases h
    · cases h
      rcases List.mem_map.mp hp with ⟨row, _, heq⟩
      cases heq
      rfl

theorem ural_mem (soup : Node) (p : Price) (hp : p ∈ uralParsePrices soup) :
    p.host = urlNetloc (parserUrl .uralvtordrag) := by
  unfold uralParsePrices at hp
  rcases List.mem_map.mp hp with ⟨row, _, heq⟩
  cases heq
  rfl

theorem parsePrices_ok_mem (k : ParserKind) (soup : Node) (l : List Price)
    (p : Price) (h : parsePrices k soup = .ok l) (hp : p ∈ l) :
    p.host = parserHost k := by
  cases k with
  | vekolom =>
    cases h
    exact (vekolom_mem soup p hp).2
  | plata57 => exact plata57_ok_mem soup l p h hp
  | uralvtordrag =>
    cases h
    exact ural_mem soup p hp

/-- The Vekolom demonstration row: one `price-table-item-wr` item with title
"Gold" and the given price text. -/
def vekolomDemoRow (priceText : String) : Node :=
  .elem "div" ["price-table-item-wr"] [] [
    .elem "span" ["positionname"] [] [.text "Gold"],
    .elem "span" ["positionprice"] [] [.text priceText]]

/-- C1 counterexample input: a Plata57 price table whose single `tr` row has
no element matching the title selector. -/
def plata57NoTitleDoc : Node :=
  .elem "html" [] [] [
    .elem "table" ["table", "table-bordered", "table-hover", "table-price"] [] [
      .elem "tbody" [] [] [
        .elem "tr" [] [] []]]]

/-- C1 counterexample: on a Plata57 document whose item row has no title
selector match, parse_prices returns that row as a record with an empty
title — the row is included, not excluded. -/
theorem c1_counterexample :
    plata57ParsePrices plata57NoTitleDoc =
      .ok [{ title := "", host := "plata57.ru", price := 0 }] := rfl

/-- C1 (amended): only Vekolom's parse_prices drops rows whose title selector
found no match (so its records always have non-empty titles); Plata57 and
Uralvtordrag return exactly one record per item row with no filtering, so a
row lacking a title match is included with an empty title. -/
theorem c1_row_filtering :
    (∀ soup p, p ∈ vekolomParsePrices soup → p.title ≠ "") ∧
    (∀ soup table tbody, findFirst plataTableQuery soup = some table →
       findFirst plataTbodyQuery table = some tbody →
       ∃ l, plata57ParsePrices soup = .ok l ∧
         l.length = (findAll plataRowQuery tbody).length) ∧
    (∀ soup, (uralParsePrices soup).length = (findAll uralRowQuery soup).length) := by
  refine ⟨fun soup p hp => (vekolom_mem soup p hp).1, ?_, ?_⟩
  · intro soup table tbody h1 h2
    refine ⟨(findAll plataRowQuery tbody).map (fun row =>
      { title := plata57ParseTitle row, host := urlNetloc (parserUrl .plata57),
        price := plata57ParsePrice row }), ?_, ?_⟩
    · simp only [plata57ParsePrices, h1, h2]
    · simp
  · intro soup
    unfold uralParsePrices
    simp

/-- C1 witness: the Vekolom clause applied to a document with one titled row,
whose produced record indeed has a non-empty title. -/
theorem c1_witness :
    ({ title := "Gold", host := "vekolom.ru", price := 100 } : Price).title ≠ "" :=
  c1_row_filtering.1 (.elem "html" [] [] [vekolomDemoRow "100"])
    { title := "Gold", host := "vekolom.ru", price := 100 } (by decide)

/-- C6: for every supported host used as the lookup key, the resolved
parser's derived host — the netloc parsed from its configured base URL —
equals the input host string; and every record parse_prices returns carries
exactly that derived host. -/
theorem c6_host_derivation :
    (∀ host k, getParserForHost host = .ok k → parserHost k = host) ∧
    (∀ k soup l p, parsePrices k soup = .ok l → p ∈ l → p.host = parserHost k) := by
  constructor
  · intro host k h
    unfold getParserForHost at h
    split_ifs at h with e1 e2 e3
    · cases h; subst e1; decide
    · cases h; subst e2; decide
    · cases h; subst e3; decide
  · exact fun k soup l p h hp => parsePrices_ok_mem k soup l p h hp

/-- C6 witness: resolving "plata57.ru" yields the Plata57 parser, whose
derived host equals the lookup key. -/
theorem c6_witness : parserHost .plata57 = "plata57.ru" :=
  c6_host_derivation.1 "plata57.ru" .plata57 rfl

/-- C7 counterexample: Vekolom's parse_prices applied to a document lacking
every expected element succeeds with an empty list — no failure propagates,
refuting the claim's "for every extractor" universal. -/
theorem c7_counterexample :
    parsePrices .vekolom (.elem "html" [] [] []) = .ok [] := rfl

/-- C7 (amended): page-level failure exists only for Plata57 — a document
without the price table, or a table without a tbody, aborts parse_prices with
an error, while a present container always yields a successful list whatever
the rows contain (row-level problems never abort); Vekolom's and
Uralvtordrag's parse_prices never fail at all — a document lacking their
expected elements yields a successful (empty) list. -/
theorem c7_propagation :
    (∀ soup, findFirst plataTableQuery soup = none →
       plata57ParsePrices soup = .error .attributeError) ∧
    (∀ soup table, findFirst plataTableQuery soup = some table →
       findFirst plataTbodyQuery table = none →
       plata57ParsePrices soup = .error .attributeError) ∧
    (∀ soup table tbody, findFirst plataTableQuery soup = some table →
       findFirst plataTbodyQuery table = some tbody →
       ∃ l, plata57ParsePrices soup = .ok l) ∧
    (∀ soup, ∃ l, parsePrices .vekolom soup = .ok l) ∧
    (∀ soup, ∃ l, parsePrices .uralvtordrag soup = .ok l) := by
  refine ⟨?_, ?_, ?_, fun soup => ⟨_, rfl⟩, fun soup => ⟨_, rfl⟩⟩
  · intro soup h
    simp only [plata57ParsePrices, h]
  · intro soup table h1 h2
    simp only [plata57ParsePrices, h1, h2]
  · intro soup table tbody h1 h2
    refine ⟨(findAll plataRowQuery tbody).map (fun row =>
      { title := plata57ParseTitle row, host := urlNetloc (parserUrl .plata57),
        price := plata57ParsePrice row }), ?_⟩
    simp only [plata57ParsePrices, h1, h2]

/-- C7 witness: the missing-table clause applied to an empty document, where
Plata57's parse_prices aborts with the attribute error. -/
theorem c7_witness :
    plata57ParsePrices (.elem "html" [] [] []) = .error .attributeError :=
  c7_propagation.1 (.elem "html" [] [] []) rfl

theorem catsController_ok (fetch : String → Node) (host : String)
    (l : List ParsedPrice)
    (h : parsePricesFromCategoriesByHost fetch host = .ok l) :
    ∃ ps : List Price, l = ps.map mkParsedPrice := by
  unfold parsePricesFromCategoriesByHost at h
  cases h1 : getParserForHost host with
  | error e => simp only [h1, Except.bind] at h; cases h
  | ok k =>
    simp only [h1, Except.bind] at h
    cases h2 : getCategoriesUrls k (fetch (parserUrl k)) with
    | error e => simp only [h2, Except.bind] at h; cases h
    | ok cats =>
      simp only [h2, Except.bind] at h
      cases h3 : gatherPrices fetch k cats with
      | error e => simp only [h3, Except.map] at h; cases h
      | ok prices =>
        simp only [h3, Except.map] at h
        cases h
        exact ⟨prices, rfl⟩

theorem byHost_ok (fetch : String → Node) (host : String) (l : List ParsedPrice)
    (h : parsePricesByHost fetch host = .ok l) :
    ∃ ps : List Price, l = ps.map mkParsedPrice := by
  unfold parsePricesByHost at h
  by_cases hc : hostsWithCategories.contains host = true
  · rw [if_pos hc] at h
    exact catsController_ok fetch host l h
  · rw [if_neg hc] at h
    cases h1 : getParserForHost host with
    | error e => simp only [h1, Except.bind] at h; cases h
    | ok k =>
      simp only [h1, Except.bind] at h
      cases h2 : parsePrices k (fetch (parserUrl k)) with
      | error e => simp only [h2, Except.map] at h; cases h
      | ok prices =>
        simp only [h2, Except.map] at h
        cases h
        exact ⟨prices, rfl⟩

theorem byHost_ok_id (fetch : String → Node) (host : String)
    (l : List ParsedPrice) (r : ParsedPrice)
    (h : parsePricesByHost fetch host = .ok l) (hr : r ∈ l) :
    r.id = md5Hex (r.host ++ r.title) := by
  rcases byHost_ok fetch host l h with ⟨ps, rfl⟩
  rcases List.mem_map.mp hr with ⟨p, _, rfl⟩
  rfl

/-- C5: the record identifier is the MD5 hex digest of the concatenation of
host and title, so any two records — even from separate invocations with
different fetch environments and hosts — with the same (host, title) pair
carry the same identifier. -/
theorem c5_identifier_determinism (f1 f2 : String → Node) (h1 h2 : String)
    (l1 l2 : List ParsedPrice) (r1 r2 : ParsedPrice)
    (e1 : parsePricesByHost f1 h1 = .ok l1)
    (e2 : parsePricesByHost f2 h2 = .ok l2)
    (m1 : r1 ∈ l1) (m2 : r2 ∈ l2)
    (hh : r1.host = r2.host) (ht : r1.title = r2.title) : r1.id = r2.id := by
  rw [byHost_ok_id f1 h1 l1 r1 e1 m1, byHost_ok_id f2 h2 l2 r2 e2 m2, hh, ht]

/-- A one-row Vekolom page where the row's price text is `priceText`. -/
def vekolomDemoFetch (priceText : String) : String → Node := fun _ =>
  .elem "html" [] [] [vekolomDemoRow priceText]

/-- The response record the demo page produces for the given price. -/
def vekolomDemoRecord (price : Nat) : ParsedPrice :=
  mkParsedPrice { title := "Gold", host := "vekolom.ru", price := price }

/-- C5 witness: two separate invocations against different documents (prices
100 and 200) whose records share (host, title) produce the same identifier. -/
theorem c5_witness :
    (vekolomDemoRecord 100).id = (vekolomDemoRecord 200).id :=
  c5_identifier_determinism (vekolomDemoFetch "100") (vekolomDemoFetch "200")
    "vekolom.ru" "vekolom.ru"
    [vekolomDemoRecord 100] [vekolomDemoRecord 200]
    (vekolomDemoRecord 100) (vekolomDemoRecord 200)
    rfl rfl (List.mem_singleton.mpr rfl) (List.mem_singleton.mpr rfl) rfl rfl

/-- C3: for the category-capable host, the top-level page is fetched, the
category URLs are discovered from it, each category page is fetched and
parsed in discovery order, and the record lists are concatenated in that
order with no deduplication; for a host without categories, the result
depends only on the document fetched at the parser's single configured
URL. -/
theorem gatherPrices_ural (fetch : String → Node) (cats : List String) :
    gatherPrices fetch .uralvtordrag cats =
      .ok ((cats.map fun c => uralParsePrices (fetch c)).flatten) := by
  induction cats with
  | nil => rfl
  | cons c rest ih =>
    simp [gatherPrices, parsePrices, ih, Except.bind, Except.map]

theorem c3_category_fanout :
    (∀ fetch cats,
       uralGetCategoriesUrls (fetch (parserUrl .uralvtordrag)) = cats →
       parsePricesByHost fetch "uralvtordrag.ru" =
         .ok (((cats.map fun c => uralParsePrices (fetch c)).flatten).map
           mkParsedPrice)) ∧
    (∀ host k f g, getParserForHost host = .ok k →
       hostsWithCategories.contains host = false →
       f (parserUrl k) = g (parserUrl k) →
       parsePricesByHost f host = parsePricesByHost g host) := by
  constructor
  · intro fetch cats hc
    unfold parsePricesByHost
    rw [if_pos (by decide : hostsWithCategories.contains "uralvtordrag.ru" = true)]
    unfold parsePricesFromCategoriesByHost
    rw [show getParserForHost "uralvtordrag.ru" = .ok .uralvtordrag from rfl]
    simp [Except.bind, Except.map, getCategoriesUrls, hc, gatherPrices_ural]
  · intro host k f g hk hc hfg
    unfold parsePricesByHost
    rw [if_neg (by rw [hc]; exact Bool.false_ne_true),
      if_neg (by rw [hc]; exact Bool.false_ne_true), hk]
    simp only [Except.bind]
    rw [hfg]

/-- One Uralvtordrag catalog item with the given caption and price text. -/
def uralItemNode (t pr : String) : Node :=
  .elem "div" ["catalogItem"] [] [
    .elem "span" ["item_caption"] [] [.text t],
    .elem "span" ["row5", "td", "item_prise"] [] [.text pr]]

/-- First demo category page: three item rows. -/
def uralCatDoc1 : Node :=
  .elem "html" [] [] [uralItemNode "A1" "10", uralItemNode "A2" "20",
    uralItemNode "A3" "30"]

/-- Second demo category page: two item rows. -/
def uralCatDoc2 : Node :=
  .elem "html" [] [] [uralItemNode "B1" "40", uralItemNode "B2" "50"]

/-- Demo top-level page: two category links. -/
def uralTopDoc : Node :=
  .elem "html" [] [] [
    .elem "a" ["catalog_part"] [("href", "/cat1")] [],
    .elem "a" ["catalog_part"] [("href", "/cat2")] []]

/-- The demo site: category pages at /cat1 and /cat2, the top page
elsewhere. -/
def uralDemoFetch (url : String) : Node :=
  if url = "https://uralvtordrag.ru/cat1" then uralCatDoc1
  else if url = "https://uralvtordrag.ru/cat2" then uralCatDoc2
  else uralTopDoc

/-- The three records of the first demo category. -/
def uralRecordsCat1 : List Price :=
  [{ title := "A1", host := "uralvtordrag.ru", price := 10 },
   { title := "A2", host := "uralvtordrag.ru", price := 20 },
   { title := "A3", host := "uralvtordrag.ru", price := 30 }]

/-- The two records of the second demo category. -/
def uralRecordsCat2 : List Price :=
  [{ title := "B1", host := "uralvtordrag.ru", price := 40 },
   { title := "B2", host := "uralvtordrag.ru", price := 50 }]

/-- C3 witness: a top page with two category links whose pages hold 3 and 2
item rows produces exactly the 5 records of category 1 followed by those of
category 2. -/
theorem c3_witness :
    parsePricesByHost uralDemoFetch "uralvtordrag.ru" =
      .ok ((uralRecordsCat1 ++ uralRecordsCat2).map mkParsedPrice) :=
  c3_category_fanout.1 uralDemoFetch
    ["https://uralvtordrag.ru/cat1", "https://uralvtordrag.ru/cat2"] rfl

/-- C10: because the identifier hashes the unseparated concatenation of host
and title, the distinct pairs ("a.ru", "xy") and ("a.rux", "y") — whose
concatenations are both "a.ruxy" — deterministically receive the same
identifier. -/
theorem c10_concatenation_collision :
    (("a.ru", "xy") ≠ (("a.rux", "y") : String × String)) ∧
    (mkParsedPrice { title := "xy", host := "a.ru", price := 1 }).id =
      (mkParsedPrice { title := "y", host := "a.rux", price := 2 }).id := by
  refine ⟨by decide, ?_⟩
  show md5Hex ("a.ru" ++ "xy") = md5Hex ("a.rux" ++ "y")
  exact congrArg md5Hex (by decide)

/-- C9: for a Vekolom row without a primary `positionprice` element, the
price is the last element of the list of normalized flexible-price
(`price_flex_value`) values — each element's text passed through the
normalizer — and 0 (the model of `0.0`) when that list is empty. -/
theorem c9_vekolom_price_fallback :
    (∀ row, vekolomParsePriceAtFlexbox row =
       (findAll vekolomFlexQuery row).map fun p => vekolomMatchPrice (nodeText p)) ∧
    (∀ row l x, findFirst vekolomPosPriceQuery row = none →
       vekolomParsePriceAtFlexbox row = l ++ [x] →
       vekolomParsePrice row = x) ∧
    (∀ row, findFirst vekolomPosPriceQuery row = none →
       vekolomParsePriceAtFlexbox row = [] →
       vekolomParsePrice row = 0) := by
  refine ⟨fun row => rfl, ?_, ?_⟩
  · intro row l x h1 h2
    simp only [vekolomParsePrice, h1, h2, List.getLast?_concat]
  · intro row h1 h2
    simp only [vekolomParsePrice, h1, h2, List.getLast?_nil]

/-- A Vekolom row with no primary price element and two flexible prices. -/
def vekolomFlexRow : Node :=
  .elem "div" ["price-table-item-wr"] [] [
    .elem "span" ["positionname"] [] [.text "Gold"],
    .elem "span" ["price_flex_value"] [] [.text "10"],
    .elem "span" ["price_flex_value"] [] [.text "20"]]

/-- C9 witness: the fallback clause applied to a row whose flexible-price
list is [10, 20], yielding the last value 20. -/
theorem c9_witness : vekolomParsePrice vekolomFlexRow = 20 :=
  c9_vekolom_price_fallback.2.1 vekolomFlexRow [10] 20 rfl rfl
